import Mathlib

/-
  Shallow embedding of the `buffer` Go package (vblegend/buffer): a
  fixed-capacity byte buffer with a shared read/write cursor, a valid-data
  high-water mark, and configurable byte order.  The embedding follows the
  current variant of `bytebuffer.go`.  Bytes are modelled as `Nat` values;
  machine integers are `Nat`/`Int` with explicit reductions modulo `2 ^ w`;
  Go floats are represented by their IEEE-754 bit patterns (Go's
  `math.Float64bits` / `math.Float64frombits` are plain bit casts, so
  `WriteFloat64`/`ReadFloat64` transport the 64-bit pattern unchanged).
  Fallible operations return an `Except` result paired with the successor
  state (Go mutates the receiver in place; we pass state explicitly).
-/

namespace GoBuffer

/-- Byte-order strategy, mirroring Go's `binary.LittleEndian` and
`binary.BigEndian` (the two instances the package documents). -/
inductive ByteOrder
  | littleEndian
  | bigEndian
deriving DecidableEq

/-- The three error values of the package: `ErrorWriteOverflow`,
`ErrorReadOverflow`, `ErrorPositionOverflow`. -/
inductive BufError
  | writeOverflow
  | readOverflow
  | positionOverflow
deriving DecidableEq

/-- Equality of operation results is decidable, so concrete scenarios can
be settled by evaluation. -/
instance {ε α : Type} [DecidableEq ε] [DecidableEq α] : DecidableEq (Except ε α) := fun x y =>
  match x, y with
  | .ok a, .ok b =>
      if h : a = b then .isTrue (h ▸ rfl) else .isFalse (fun hh => h (Except.ok.inj hh))
  | .error a, .error b =>
      if h : a = b then .isTrue (h ▸ rfl) else .isFalse (fun hh => h (Except.error.inj hh))
  | .ok _, .error _ => .isFalse (fun hh => Except.noConfusion hh)
  | .error _, .ok _ => .isFalse (fun hh => Except.noConfusion hh)

/-- The `ByteBuffer` struct: capacity, backing storage, valid-data length
(`length`), read/write cursor (`offset`) and byte order.  `length` and
`offset` are `Nat`: every code path that stores a caller-supplied integer
into them first rejects negative values, so they are non-negative in all
reachable states. -/
structure ByteBuffer where
  cap : Nat
  buf : List Nat
  length : Nat
  offset : Nat
  order : ByteOrder
deriving DecidableEq

/-- Models `NewByteBuffer(cap, order)`: `make([]byte, cap)` zero-fills the
storage, and `length` and `offset` start at 0. -/
def NewByteBuffer (cap : Nat) (order : ByteOrder) : ByteBuffer :=
  { cap := cap, buf := List.replicate cap 0, length := 0, offset := 0, order := order }

/-- Models Go's `copy(dst[offset:], src)`: overwrites `dst` starting at
`offset` with `src`, truncated at `dst`'s end; the length of `dst` never
changes. -/
def copyInto (dst : List Nat) (offset : Nat) (src : List Nat) : List Nat :=
  dst.take offset ++ src.take (dst.length - offset) ++ dst.drop (offset + src.length)

/-- Models `order.PutUint16(b, v)` from `encoding/binary`: little-endian
writes `byte(v), byte(v>>8)`; big-endian the reverse. -/
def putUint16Bytes : ByteOrder → Nat → List Nat
  | .littleEndian, v => [v % 256, v / 2 ^ 8 % 256]
  | .bigEndian,    v => [v / 2 ^ 8 % 256, v % 256]

/-- Models `order.Uint16(b)` from `encoding/binary`. -/
def getUint16Bytes : ByteOrder → List Nat → Nat
  | .littleEndian, b => b.getD 0 0 + b.getD 1 0 * 2 ^ 8
  | .bigEndian,    b => b.getD 1 0 + b.getD 0 0 * 2 ^ 8

/-- Models `order.PutUint32(b, v)` from `encoding/binary`. -/
def putUint32Bytes : ByteOrder → Nat → List Nat
  | .littleEndian, v => [v % 256, v / 2 ^ 8 % 256, v / 2 ^ 16 % 256, v / 2 ^ 24 % 256]
  | .bigEndian,    v => [v / 2 ^ 24 % 256, v / 2 ^ 16 % 256, v / 2 ^ 8 % 256, v % 256]

/-- Models `order.Uint32(b)` from `encoding/binary`. -/
def getUint32Bytes : ByteOrder → List Nat → Nat
  | .littleEndian, b =>
      b.getD 0 0 + b.getD 1 0 * 2 ^ 8 + b.getD 2 0 * 2 ^ 16 + b.getD 3 0 * 2 ^ 24
  | .bigEndian,    b =>
      b.getD 3 0 + b.getD 2 0 * 2 ^ 8 + b.getD 1 0 * 2 ^ 16 + b.getD 0 0 * 2 ^ 24

/-- Models `order.PutUint64(b, v)` from `encoding/binary`. -/
def putUint64Bytes : ByteOrder → Nat → List Nat
  | .littleEndian, v =>
      [v % 256, v / 2 ^ 8 % 256, v / 2 ^ 16 % 256, v / 2 ^ 24 % 256,
       v / 2 ^ 32 % 256, v / 2 ^ 40 % 256, v / 2 ^ 48 % 256, v / 2 ^ 56 % 256]
  | .bigEndian,    v =>
      [v / 2 ^ 56 % 256, v / 2 ^ 48 % 256, v / 2 ^ 40 % 256, v / 2 ^ 32 % 256,
       v / 2 ^ 24 % 256, v / 2 ^ 16 % 256, v / 2 ^ 8 % 256, v % 256]

/-- Models `order.Uint64(b)` from `encoding/binary`. -/
def getUint64Bytes : ByteOrder → List Nat → Nat
  | .littleEndian, b =>
      b.getD 0 0 + b.getD 1 0 * 2 ^ 8 + b.getD 2 0 * 2 ^ 16 + b.getD 3 0 * 2 ^ 24 +
      b.getD 4 0 * 2 ^ 32 + b.getD 5 0 * 2 ^ 40 + b.getD 6 0 * 2 ^ 48 + b.getD 7 0 * 2 ^ 56
  | .bigEndian,    b =>
      b.getD 7 0 + b.getD 6 0 * 2 ^ 8 + b.getD 5 0 * 2 ^ 16 + b.getD 4 0 * 2 ^ 24 +
      b.getD 3 0 * 2 ^ 32 + b.getD 2 0 * 2 ^ 40 + b.getD 1 0 * 2 ^ 48 + b.getD 0 0 * 2 ^ 56

/-- Go's conversion of a signed integer to its `w`-bit unsigned
representation (e.g. `uint16(value)` for `value : int16`). -/
def uintOfInt (w : Nat) (v : Int) : Nat :=
  (v % ((2 : Int) ^ w)).toNat

/-- Go's reinterpretation of a `w`-bit unsigned value as a signed integer
(e.g. `int16(value)` for `value : uint16`): two's complement. -/
def intOfUint (w : Nat) (u : Nat) : Int :=
  if u < 2 ^ (w - 1) then (u : Int) else (u : Int) - 2 ^ w

/-- Models the private `applyWrite`: fails (state unchanged) when
`offset + size > cap`; otherwise returns the old cursor as the write
offset, advances the cursor, and raises `length` to the cursor when the
cursor passed it. -/
def applyWrite (buf : ByteBuffer) (size : Nat) : Nat × Bool × ByteBuffer :=
  if buf.offset + size > buf.cap then
    (buf.offset, false, buf)
  else
    let newOffset := buf.offset + size
    let newLength := if newOffset > buf.length then newOffset else buf.length
    (buf.offset, true, { buf with offset := newOffset, length := newLength })

/-- Models the private `applyRead`: fails (state unchanged) when
`offset + size > length`; otherwise returns the old cursor as the read
offset and advances the cursor. -/
def applyRead (buf : ByteBuffer) (size : Nat) : Nat × Bool × ByteBuffer :=
  if buf.offset + size > buf.length then
    (buf.offset, false, buf)
  else
    (buf.offset, true, { buf with offset := buf.offset + size })

/-- Models `WriteInt8` (Go takes a `byte`, so callers supply `value < 256`). -/
def WriteInt8 (buf : ByteBuffer) (value : Nat) : Except BufError Unit × ByteBuffer :=
  match applyWrite buf 1 with
  | (offset, ok, buf1) =>
    if ok then (.ok (), { buf1 with buf := buf1.buf.set offset value })
    else (.error .writeOverflow, buf1)

/-- Models `WriteBoolean`: true writes 1, false writes 0. -/
def WriteBoolean (buf : ByteBuffer) (value : Bool) : Except BufError Unit × ByteBuffer :=
  if value then WriteInt8 buf 1 else WriteInt8 buf 0

/-- Models `WriteBytes`: reserves `len(value)` bytes, copies them in, and
returns the count reported by Go's `copy`. -/
def WriteBytes (buf : ByteBuffer) (value : List Nat) : Except BufError Nat × ByteBuffer :=
  match applyWrite buf value.length with
  | (offset, ok, buf1) =>
    if ok then
      (.ok (min value.length (buf1.buf.length - offset)),
       { buf1 with buf := copyInto buf1.buf offset value })
    else (.error .writeOverflow, buf1)

/-- Models `WriteString`, which delegates to `WriteBytes` on the string's
bytes (strings are modelled as their byte lists). -/
def WriteString (buf : ByteBuffer) (value : List Nat) : Except BufError Nat × ByteBuffer :=
  WriteBytes buf value

/-- Models `WriteInt16`: encodes `uint16(value)` per the byte order. -/
def WriteInt16 (buf : ByteBuffer) (value : Int) : Except BufError Unit × ByteBuffer :=
  match applyWrite buf 2 with
  | (offset, ok, buf1) =>
    if ok then
      (.ok (), { buf1 with buf := copyInto buf1.buf offset (putUint16Bytes buf1.order (uintOfInt 16 value)) })
    else (.error .writeOverflow, buf1)

/-- Models `WriteUInt16`. -/
def WriteUInt16 (buf : ByteBuffer) (value : Nat) : Except BufError Unit × ByteBuffer :=
  match applyWrite buf 2 with
  | (offset, ok, buf1) =>
    if ok then
      (.ok (), { buf1 with buf := copyInto buf1.buf offset (putUint16Bytes buf1.order value) })
    else (.error .writeOverflow, buf1)

/-- Models `WriteInt32`: encodes `uint32(value)` per the byte order. -/
def WriteInt32 (buf : ByteBuffer) (value : Int) : Except BufError Unit × ByteBuffer :=
  match applyWrite buf 4 with
  | (offset, ok, buf1) =>
    if ok then
      (.ok (), { buf1 with buf := copyInto buf1.buf offset (putUint32Bytes buf1.order (uintOfInt 32 value)) })
    else (.error .writeOverflow, buf1)

/-- Models `WriteUInt32`. -/
def WriteUInt32 (buf : ByteBuffer) (value : Nat) : Except BufError Unit × ByteBuffer :=
  match applyWrite buf 4 with
  | (offset, ok, buf1) =>
    if ok then
      (.ok (), { buf1 with buf := copyInto buf1.buf offset (putUint32Bytes buf1.order value) })
    else (.error .writeOverflow, buf1)

/-- Models `WriteInt64`: encodes `uint64(value)` per the byte order. -/
def WriteInt64 (buf : ByteBuffer) (value : Int) : Except BufError Unit × ByteBuffer :=
  match applyWrite buf 8 with
  | (offset, ok, buf1) =>
    if ok then
      (.ok (), { buf1 with buf := copyInto buf1.buf offset (putUint64Bytes buf1.order (uintOfInt 64 value)) })
    else (.error .writeOverflow, buf1)

/-- Models `WriteUInt64`. -/
def WriteUInt64 (buf : ByteBuffer) (value : Nat) : Except BufError Unit × ByteBuffer :=
  match applyWrite buf 8 with
  | (offset, ok, buf1) =>
    if ok then
      (.ok (), { buf1 with buf := copyInto buf1.buf offset (putUint64Bytes buf1.order value) })
    else (.error .writeOverflow, buf1)

/-- Models `WriteFloat32`: `bits` stands for `math.Float32bits(value)`. -/
def WriteFloat32 (buf : ByteBuffer) (bits : Nat) : Except BufError Unit × ByteBuffer :=
  match applyWrite buf 4 with
  | (offset, ok, buf1) =>
    if ok then
      (.ok (), { buf1 with buf := copyInto buf1.buf offset (putUint32Bytes buf1.order bits) })
    else (.error .writeOverflow, buf1)

/-- Models `WriteFloat64`: `bits` stands for `math.Float64bits(value)`. -/
def WriteFloat64 (buf : ByteBuffer) (bits : Nat) : Except BufError Unit × ByteBuffer :=
  match applyWrite buf 8 with
  | (offset, ok, buf1) =>
    if ok then
      (.ok (), { buf1 with buf := copyInto buf1.buf offset (putUint64Bytes buf1.order bits) })
    else (.error .writeOverflow, buf1)

/-- Models `ReadInt8`. -/
def ReadInt8 (buf : ByteBuffer) : Except BufError Nat × ByteBuffer :=
  match applyRead buf 1 with
  | (offset, ok, buf1) =>
    if ok then (.ok (buf1.buf.getD offset 0), buf1)
    else (.error .readOverflow, buf1)

/-- Models `ReadBoolean`: reads a byte and compares it against `TRUE = 1`. -/
def ReadBoolean (buf : ByteBuffer) : Except BufError Bool × ByteBuffer :=
  match ReadInt8 buf with
  | (value, buf1) => (value.map (fun x => x == 1), buf1)

/-- The loop body of `ReadString`'s negative-length scan, structurally
recursive on the number of remaining iterations (the loop runs while
`i < stop`, so `stop - i` iterations always suffice). -/
def findZeroGo (l : List Nat) (stop i : Nat) : Nat → Nat
  | 0 => stop
  | fuel + 1 =>
    if i < stop then
      (if l.getD i 0 = 0 then i else findZeroGo l stop (i + 1) fuel)
    else stop

/-- Models the loop in `ReadString`'s negative-length branch: the first
index `i` with `start ≤ i < stop` and `buf[i] = 0`, or `stop` when no such
index exists (`endIndex` is initialised to `buf.length`, i.e. `stop`). -/
def findZero (l : List Nat) (stop i : Nat) : Nat :=
  findZeroGo l stop i (stop - i)

/-- Models `ReadString`: length 0 short-circuits; negative length scans to
the first zero byte before `length` and moves the cursor to that index;
positive length consumes exactly that many bytes from the valid region. -/
def ReadString (buf : ByteBuffer) (length : Int) : Except BufError (List Nat) × ByteBuffer :=
  if length = 0 then (.ok [], buf)
  else if length ≤ 0 then
    let startIndex := buf.offset
    let endIndex := findZero buf.buf buf.length buf.offset
    (.ok ((buf.buf.drop startIndex).take (endIndex - startIndex)),
     { buf with offset := endIndex })
  else if (buf.offset : Int) + length > (buf.length : Int) then
    (.error .readOverflow, buf)
  else
    match applyRead buf length.toNat with
    | (offset, ok, buf1) =>
      if ok then (.ok ((buf1.buf.drop offset).take length.toNat), buf1)
      else (.error .readOverflow, buf1)

/-- Models `ReadBytes(value, length)`: length 0 short-circuits; a positive
length larger than `len(value)` fails with `ErrorReadOverflow` before
touching the cursor (in the Go source this guard sits in an `else if`
after the `length < 0` branch, which is equivalent to testing it first
since a negative length is never larger than `len(value)`); otherwise a
negative length is replaced by `len(value)` and that many bytes are
consumed; the result is the count reported by Go's `copy`. -/
def ReadBytes (buf : ByteBuffer) (value : List Nat) (length : Int) :
    Except BufError Nat × ByteBuffer :=
  if length = 0 then (.ok 0, buf)
  else if length > (value.length : Int) then (.error .readOverflow, buf)
  else
    let len : Nat := if length < 0 then value.length else length.toNat
    match applyRead buf len with
    | (offset, ok, buf1) =>
      if ok then (.ok (min value.length len), buf1)
      else (.error .readOverflow, buf1)

/-- Models `ReadInt16`: decodes a `uint16` and reinterprets it as `int16`. -/
def ReadInt16 (buf : ByteBuffer) : Except BufError Int × ByteBuffer :=
  match applyRead buf 2 with
  | (offset, ok, buf1) =>
    if ok then (.ok (intOfUint 16 (getUint16Bytes buf1.order (buf1.buf.drop offset))), buf1)
    else (.error .readOverflow, buf1)

/-- Models `ReadUInt16`. -/
def ReadUInt16 (buf : ByteBuffer) : Except BufError Nat × ByteBuffer :=
  match applyRead buf 2 with
  | (offset, ok, buf1) =>
    if ok then (.ok (getUint16Bytes buf1.order (buf1.buf.drop offset)), buf1)
    else (.error .readOverflow, buf1)

/-- Models `ReadInt32`. -/
def ReadInt32 (buf : ByteBuffer) : Except BufError Int × ByteBuffer :=
  match applyRead buf 4 with
  | (offset, ok, buf1) =>
    if ok then (.ok (intOfUint 32 (getUint32Bytes buf1.order (buf1.buf.drop offset))), buf1)
    else (.error .readOverflow, buf1)

/-- Models `ReadUInt32`. -/
def ReadUInt32 (buf : ByteBuffer) : Except BufError Nat × ByteBuffer :=
  match applyRead buf 4 with
  | (offset, ok, buf1) =>
    if ok then (.ok (getUint32Bytes buf1.order (buf1.buf.drop offset)), buf1)
    else (.error .readOverflow, buf1)

/-- Models `ReadInt64`. -/
def ReadInt64 (buf : ByteBuffer) : Except BufError Int × ByteBuffer :=
  match applyRead buf 8 with
  | (offset, ok, buf1) =>
    if ok then (.ok (intOfUint 64 (getUint64Bytes buf1.order (buf1.buf.drop offset))), buf1)
    else (.error .readOverflow, buf1)

/-- Models `ReadUInt64`. -/
def ReadUInt64 (buf : ByteBuffer) : Except BufError Nat × ByteBuffer :=
  match applyRead buf 8 with
  | (offset, ok, buf1) =>
    if ok then (.ok (getUint64Bytes buf1.order (buf1.buf.drop offset)), buf1)
    else (.error .readOverflow, buf1)

/-- Models `ReadFloat32`: returns the bit pattern handed to
`math.Float32frombits`. -/
def ReadFloat32 (buf : ByteBuffer) : Except BufError Nat × ByteBuffer :=
  match applyRead buf 4 with
  | (offset, ok, buf1) =>
    if ok then (.ok (getUint32Bytes buf1.order (buf1.buf.drop offset)), buf1)
    else (.error .readOverflow, buf1)

/-- Models `ReadFloat64`: returns the bit pattern handed to
`math.Float64frombits`. -/
def ReadFloat64 (buf : ByteBuffer) : Except BufError Nat × ByteBuffer :=
  match applyRead buf 8 with
  | (offset, ok, buf1) =>
    if ok then (.ok (getUint64Bytes buf1.order (buf1.buf.drop offset)), buf1)
    else (.error .readOverflow, buf1)

/-- Models `SetPosition`: rejects positions outside `[0, length]`. -/
def SetPosition (buf : ByteBuffer) (asbOffset : Int) : Except BufError Unit × ByteBuffer :=
  if asbOffset < 0 ∨ asbOffset > (buf.length : Int) then
    (.error .positionOverflow, buf)
  else (.ok (), { buf with offset := asbOffset.toNat })

/-- Models `Position`. -/
def Position (buf : ByteBuffer) : Nat :=
  buf.offset

/-- Models `Reset`: zeroes `length` and `offset`, storage untouched. -/
def Reset (buf : ByteBuffer) : ByteBuffer :=
  { buf with length := 0, offset := 0 }

/-- Models `SetOrder`. -/
def SetOrder (buf : ByteBuffer) (order : ByteOrder) : ByteBuffer :=
  { buf with order := order }

/-- Models `PutUInt16`: writes at an explicit offset, validated against
`length`, without touching the cursor. -/
def PutUInt16 (buf : ByteBuffer) (offset : Int) (value : Nat) : Except BufError Unit × ByteBuffer :=
  if offset < 0 ∨ offset + 2 > (buf.length : Int) then (.error .positionOverflow, buf)
  else (.ok (), { buf with buf := copyInto buf.buf offset.toNat (putUint16Bytes buf.order value) })

/-- Models `PutUInt32`. -/
def PutUInt32 (buf : ByteBuffer) (offset : Int) (value : Nat) : Except BufError Unit × ByteBuffer :=
  if offset < 0 ∨ offset + 4 > (buf.length : Int) then (.error .positionOverflow, buf)
  else (.ok (), { buf with buf := copyInto buf.buf offset.toNat (putUint32Bytes buf.order value) })

/-- Models `PutUInt64`. -/
def PutUInt64 (buf : ByteBuffer) (offset : Int) (value : Nat) : Except BufError Unit × ByteBuffer :=
  if offset < 0 ∨ offset + 8 > (buf.length : Int) then (.error .positionOverflow, buf)
  else (.ok (), { buf with buf := copyInto buf.buf offset.toNat (putUint64Bytes buf.order value) })

/-- Models `GetUInt16`: reads at an explicit offset, validated against
`length`, without touching the cursor. -/
def GetUInt16 (buf : ByteBuffer) (offset : Int) : Except BufError Nat × ByteBuffer :=
  if offset < 0 ∨ offset + 2 > (buf.length : Int) then (.error .positionOverflow, buf)
  else (.ok (getUint16Bytes buf.order (buf.buf.drop offset.toNat)), buf)

/-- Models `GetUInt32`. -/
def GetUInt32 (buf : ByteBuffer) (offset : Int) : Except BufError Nat × ByteBuffer :=
  if offset < 0 ∨ offset + 4 > (buf.length : Int) then (.error .positionOverflow, buf)
  else (.ok (getUint32Bytes buf.order (buf.buf.drop offset.toNat)), buf)

/-- Models `GetUInt64`. -/
def GetUInt64 (buf : ByteBuffer) (offset : Int) : Except BufError Nat × ByteBuffer :=
  if offset < 0 ∨ offset + 8 > (buf.length : Int) then (.error .positionOverflow, buf)
  else (.ok (getUint64Bytes buf.order (buf.buf.drop offset.toNat)), buf)

/-- The public mutating or fallible operations of the buffer, as one
inductive type, so that error atomicity and invariant preservation can be
stated once over the whole API surface.  The pure accessors (`Length`,
`Cap`, `Position`, `Buffer`, `Data`) read fields without mutating or
failing, so they are omitted. -/
inductive Op
  | setPosition (p : Int)
  | reset
  | setOrder (o : ByteOrder)
  | writeInt8 (v : Nat)
  | writeBoolean (v : Bool)
  | writeString (v : List Nat)
  | writeBytes (v : List Nat)
  | writeInt16 (v : Int)
  | writeUInt16 (v : Nat)
  | writeInt32 (v : Int)
  | writeUInt32 (v : Nat)
  | writeInt64 (v : Int)
  | writeUInt64 (v : Nat)
  | writeFloat32 (bits : Nat)
  | writeFloat64 (bits : Nat)
  | readInt8
  | readBoolean
  | readString (length : Int)
  | readBytes (value : List Nat) (length : Int)
  | readInt16
  | readUInt16
  | readInt32
  | readUInt32
  | readInt64
  | readUInt64
  | readFloat32
  | readFloat64
  | putUInt16 (offset : Int) (v : Nat)
  | putUInt32 (offset : Int) (v : Nat)
  | putUInt64 (offset : Int) (v : Nat)
  | getUInt16 (offset : Int)
  | getUInt32 (offset : Int)
  | getUInt64 (offset : Int)

/-- Runs one public operation on a state, keeping the error/success outcome
and the successor state, and discarding the operation's returned value. -/
def step (buf : ByteBuffer) : Op → Except BufError Unit × ByteBuffer
  | .setPosition p => SetPosition buf p
  | .reset => (.ok (), Reset buf)
  | .setOrder o => (.ok (), SetOrder buf o)
  | .writeInt8 v => WriteInt8 buf v
  | .writeBoolean v => WriteBoolean buf v
  | .writeString v => ((WriteString buf v).1.map fun _ => (), (WriteString buf v).2)
  | .writeBytes v => ((WriteBytes buf v).1.map fun _ => (), (WriteBytes buf v).2)
  | .writeInt16 v => WriteInt16 buf v
  | .writeUInt16 v => WriteUInt16 buf v
  | .writeInt32 v => WriteInt32 buf v
  | .writeUInt32 v => WriteUInt32 buf v
  | .writeInt64 v => WriteInt64 buf v
  | .writeUInt64 v => WriteUInt64 buf v
  | .writeFloat32 bits => WriteFloat32 buf bits
  | .writeFloat64 bits => WriteFloat64 buf bits
  | .readInt8 => ((ReadInt8 buf).1.map fun _ => (), (ReadInt8 buf).2)
  | .readBoolean => ((ReadBoolean buf).1.map fun _ => (), (ReadBoolean buf).2)
  | .readString len => ((ReadString buf len).1.map fun _ => (), (ReadString buf len).2)
  | .readBytes value len => ((ReadBytes buf value len).1.map fun _ => (), (ReadBytes buf value len).2)
  | .readInt16 => ((ReadInt16 buf).1.map fun _ => (), (ReadInt16 buf).2)
  | .readUInt16 => ((ReadUInt16 buf).1.map fun _ => (), (ReadUInt16 buf).2)
  | .readInt32 => ((ReadInt32 buf).1.map fun _ => (), (ReadInt32 buf).2)
  | .readUInt32 => ((ReadUInt32 buf).1.map fun _ => (), (ReadUInt32 buf).2)
  | .readInt64 => ((ReadInt64 buf).1.map fun _ => (), (ReadInt64 buf).2)
  | .readUInt64 => ((ReadUInt64 buf).1.map fun _ => (), (ReadUInt64 buf).2)
  | .readFloat32 => ((ReadFloat32 buf).1.map fun _ => (), (ReadFloat32 buf).2)
  | .readFloat64 => ((ReadFloat64 buf).1.map fun _ => (), (ReadFloat64 buf).2)
  | .putUInt16 off v => PutUInt16 buf off v
  | .putUInt32 off v => PutUInt32 buf off v
  | .putUInt64 off v => PutUInt64 buf off v
  | .getUInt16 off => ((GetUInt16 buf off).1.map fun _ => (), (GetUInt16 buf off).2)
  | .getUInt32 off => ((GetUInt32 buf off).1.map fun _ => (), (GetUInt32 buf off).2)
  | .getUInt64 off => ((GetUInt64 buf off).1.map fun _ => (), (GetUInt64 buf off).2)

/-- The structural invariant of a buffer state: the cursor never passes the
valid-data length, and the valid-data length never passes the capacity
(`0 ≤ cursor` holds by the `Nat` typing of the cursor, which is justified
because every operation rejects negative position arguments before storing
them). -/
def WF (buf : ByteBuffer) : Prop :=
  buf.offset ≤ buf.length ∧ buf.length ≤ buf.cap

/-- Runs `WriteBytes` for each chunk in turn, stopping at the first error:
a driver used to state the capacity-boundary property over a whole write
sequence. -/
def writeList (buf : ByteBuffer) : List (List Nat) → Except BufError ByteBuffer
  | [] => .ok buf
  | c :: cs =>
    match WriteBytes buf c with
    | (.ok _, buf1) => writeList buf1 cs
    | (.error e, _) => .error e

/-- The buffer obtained by writing bytes 0x41 0x42 0x00 0x43 into a fresh
little-endian buffer of capacity 8 and seeking back to position 0 (the
concrete scenario named by the specification's zero-terminated-string
property). -/
def abBuf : ByteBuffer :=
  (SetPosition (WriteBytes (NewByteBuffer 8 .littleEndian) [65, 66, 0, 67]).2 0).2

/-! ### Helper lemmas about the embedded primitives -/

theorem copyInto_length (dst : List Nat) (off : Nat) (src : List Nat) :
    (copyInto dst off src).length = dst.length := by
  simp [copyInto]
  omega

theorem copyInto_drop (dst src : List Nat) (off : Nat)
    (h : off + src.length ≤ dst.length) :
    (copyInto dst off src).drop off = src ++ dst.drop (off + src.length) := by
  have h1 : src.take (dst.length - off) = src := List.take_of_length_le (by omega)
  have h2 : (dst.take off).length = off := by simp; omega
  have h3 : (dst.take off ++ src).drop off = src := by
    have h4 := List.drop_left (dst.take off) src
    rwa [h2] at h4
  rw [copyInto, h1, List.drop_append_of_le_length (by simp; omega), h3]

theorem putUint16Bytes_length (o : ByteOrder) (v : Nat) :
    (putUint16Bytes o v).length = 2 := by
  cases o <;> rfl

theorem putUint32Bytes_length (o : ByteOrder) (v : Nat) :
    (putUint32Bytes o v).length = 4 := by
  cases o <;> rfl

theorem putUint64Bytes_length (o : ByteOrder) (v : Nat) :
    (putUint64Bytes o v).length = 8 := by
  cases o <;> rfl

theorem getPut16 (o : ByteOrder) (v : Nat) (rest : List Nat) :
    getUint16Bytes o (putUint16Bytes o v ++ rest) = v % 2 ^ 16 := by
  cases o <;> simp [putUint16Bytes, getUint16Bytes, List.getD] <;> omega

theorem getPut32 (o : ByteOrder) (v : Nat) (rest : List Nat) :
    getUint32Bytes o (putUint32Bytes o v ++ rest) = v % 2 ^ 32 := by
  cases o <;> simp [putUint32Bytes, getUint32Bytes, List.getD] <;> omega

theorem getPut64 (o : ByteOrder) (v : Nat) (rest : List Nat) :
    getUint64Bytes o (putUint64Bytes o v ++ rest) = v % 2 ^ 64 := by
  cases o <;> simp [putUint64Bytes, getUint64Bytes, List.getD] <;> omega

theorem getD_set_self (l : List Nat) (i v : Nat) (h : i < l.length) :
    (l.set i v).getD i 0 = v := by
  simp [List.getD, List.getElem?_set, h]

theorem applyWrite_ok (buf : ByteBuffer) (size : Nat) (h : buf.offset + size ≤ buf.cap) :
    applyWrite buf size = (buf.offset, true,
      { buf with offset := buf.offset + size, length := max buf.length (buf.offset + size) }) := by
  have hm : (if buf.offset + size > buf.length then buf.offset + size else buf.length)
      = max buf.length (buf.offset + size) := by split <;> omega
  simp only [applyWrite, if_neg (by omega : ¬ buf.offset + size > buf.cap)]
  rw [hm]

theorem applyWrite_fail (buf : ByteBuffer) (size : Nat) (h : buf.cap < buf.offset + size) :
    applyWrite buf size = (buf.offset, false, buf) := by
  simp only [applyWrite, if_pos (by omega : buf.offset + size > buf.cap)]

theorem applyRead_ok (buf : ByteBuffer) (size : Nat) (h : buf.offset + size ≤ buf.length) :
    applyRead buf size = (buf.offset, true, { buf with offset := buf.offset + size }) := by
  simp only [applyRead, if_neg (by omega : ¬ buf.offset + size > buf.length)]

theorem applyRead_fail (buf : ByteBuffer) (size : Nat) (h : buf.length < buf.offset + size) :
    applyRead buf size = (buf.offset, false, buf) := by
  simp only [applyRead, if_pos (by omega : buf.offset + size > buf.length)]

theorem SetPosition_ok (buf : ByteBuffer) (p : Int) (h0 : 0 ≤ p) (h1 : p ≤ (buf.length : Int)) :
    SetPosition buf p = (.ok (), { buf with offset := p.toNat }) := by
  unfold SetPosition
  rw [if_neg (by omega : ¬ (p < 0 ∨ p > (buf.length : Int)))]

theorem WriteInt8_ok (buf : ByteBuffer) (v : Nat) (h : buf.offset + 1 ≤ buf.cap) :
    WriteInt8 buf v = (.ok (), { buf with
      offset := buf.offset + 1
      length := max buf.length (buf.offset + 1)
      buf := buf.buf.set buf.offset v }) := by
  unfold WriteInt8
  rw [applyWrite_ok buf 1 h]
  rfl

theorem WriteBytes_ok (buf : ByteBuffer) (v : List Nat) (h : buf.offset + v.length ≤ buf.cap) :
    WriteBytes buf v = (.ok (min v.length (buf.buf.length - buf.offset)), { buf with
      offset := buf.offset + v.length
      length := max buf.length (buf.offset + v.length)
      buf := copyInto buf.buf buf.offset v }) := by
  unfold WriteBytes
  rw [applyWrite_ok buf v.length h]
  rfl

theorem WriteBytes_fail (buf : ByteBuffer) (v : List Nat) (h : buf.cap < buf.offset + v.length) :
    WriteBytes buf v = (.error .writeOverflow, buf) := by
  unfold WriteBytes
  rw [applyWrite_fail buf v.length h]
  rfl

theorem WriteUInt16_ok (buf : ByteBuffer) (v : Nat) (h : buf.offset + 2 ≤ buf.cap) :
    WriteUInt16 buf v = (.ok (), { buf with
      offset := buf.offset + 2
      length := max buf.length (buf.offset + 2)
      buf := copyInto buf.buf buf.offset (putUint16Bytes buf.order v) }) := by
  unfold WriteUInt16
  rw [applyWrite_ok buf 2 h]
  rfl

theorem WriteInt16_ok (buf : ByteBuffer) (v : Int) (h : buf.offset + 2 ≤ buf.cap) :
    WriteInt16 buf v = (.ok (), { buf with
      offset := buf.offset + 2
      length := max buf.length (buf.offset + 2)
      buf := copyInto buf.buf buf.offset (putUint16Bytes buf.order (uintOfInt 16 v)) }) := by
  unfold WriteInt16
  rw [applyWrite_ok buf 2 h]
  rfl

theorem WriteUInt32_ok (buf : ByteBuffer) (v : Nat) (h : buf.offset + 4 ≤ buf.cap) :
    WriteUInt32 buf v = (.ok (), { buf with
      offset := buf.offset + 4
      length := max buf.length (buf.offset + 4)
      buf := copyInto buf.buf buf.offset (putUint32Bytes buf.order v) }) := by
  unfold WriteUInt32
  rw [applyWrite_ok buf 4 h]
  rfl

theorem WriteInt32_ok (buf : ByteBuffer) (v : Int) (h : buf.offset + 4 ≤ buf.cap) :
    WriteInt32 buf v = (.ok (), { buf with
      offset := buf.offset + 4
      length := max buf.length (buf.offset + 4)
      buf := copyInto buf.buf buf.offset (putUint32Bytes buf.order (uintOfInt 32 v)) }) := by
  unfold WriteInt32
  rw [applyWrite_ok buf 4 h]
  rfl

theorem WriteUInt64_ok (buf : ByteBuffer) (v : Nat) (h : buf.offset + 8 ≤ buf.cap) :
    WriteUInt64 buf v = (.ok (), { buf with
      offset := buf.offset + 8
      length := max buf.length (buf.offset + 8)
      buf := copyInto buf.buf buf.offset (putUint64Bytes buf.order v) }) := by
  unfold WriteUInt64
  rw [applyWrite_ok buf 8 h]
  rfl

theorem WriteInt64_ok (buf : ByteBuffer) (v : Int) (h : buf.offset + 8 ≤ buf.cap) :
    WriteInt64 buf v = (.ok (), { buf with
      offset := buf.offset + 8
      length := max buf.length (buf.offset + 8)
      buf := copyInto buf.buf buf.offset (putUint64Bytes buf.order (uintOfInt 64 v)) }) := by
  unfold WriteInt64
  rw [applyWrite_ok buf 8 h]
  rfl

theorem WriteFloat32_ok (buf : ByteBuffer) (bits : Nat) (h : buf.offset + 4 ≤ buf.cap) :
    WriteFloat32 buf bits = (.ok (), { buf with
      offset := buf.offset + 4
      length := max buf.length (buf.offset + 4)
      buf := copyInto buf.buf buf.offset (putUint32Bytes buf.order bits) }) := by
  unfold WriteFloat32
  rw [applyWrite_ok buf 4 h]
  rfl

theorem WriteFloat64_ok (buf : ByteBuffer) (bits : Nat) (h : buf.offset + 8 ≤ buf.cap) :
    WriteFloat64 buf bits = (.ok (), { buf with
      offset := buf.offset + 8
      length := max buf.length (buf.offset + 8)
      buf := copyInto buf.buf buf.offset (putUint64Bytes buf.order bits) }) := by
  unfold WriteFloat64
  rw [applyWrite_ok buf 8 h]
  rfl

theorem ReadInt8_ok (buf : ByteBuffer) (h : buf.offset + 1 ≤ buf.length) :
    ReadInt8 buf = (.ok (buf.buf.getD buf.offset 0), { buf with offset := buf.offset + 1 }) := by
  unfold ReadInt8
  rw [applyRead_ok buf 1 h]
  rfl

theorem ReadUInt16_ok (buf : ByteBuffer) (h : buf.offset + 2 ≤ buf.length) :
    ReadUInt16 buf = (.ok (getUint16Bytes buf.order (buf.buf.drop buf.offset)),
      { buf with offset := buf.offset + 2 }) := by
  unfold ReadUInt16
  rw [applyRead_ok buf 2 h]
  rfl

theorem ReadInt16_ok (buf : ByteBuffer) (h : buf.offset + 2 ≤ buf.length) :
    ReadInt16 buf = (.ok (intOfUint 16 (getUint16Bytes buf.order (buf.buf.drop buf.offset))),
      { buf with offset := buf.offset + 2 }) := by
  unfold ReadInt16
  rw [applyRead_ok buf 2 h]
  rfl

theorem ReadUInt32_ok (buf : ByteBuffer) (h : buf.offset + 4 ≤ buf.length) :
    ReadUInt32 buf = (.ok (getUint32Bytes buf.order (buf.buf.drop buf.offset)),
      { buf with offset := buf.offset + 4 }) := by
  unfold ReadUInt32
  rw [applyRead_ok buf 4 h]
  rfl

theorem ReadInt32_ok (buf : ByteBuffer) (h : buf.offset + 4 ≤ buf.length) :
    ReadInt32 buf = (.ok (intOfUint 32 (getUint32Bytes buf.order (buf.buf.drop buf.offset))),
      { buf with offset := buf.offset + 4 }) := by
  unfold ReadInt32
  rw [applyRead_ok buf 4 h]
  rfl

theorem ReadUInt64_ok (buf : ByteBuffer) (h : buf.offset + 8 ≤ buf.length) :
    ReadUInt64 buf = (.ok (getUint64Bytes buf.order (buf.buf.drop buf.offset)),
      { buf with offset := buf.offset + 8 }) := by
  unfold ReadUInt64
  rw [applyRead_ok buf 8 h]
  rfl

theorem ReadInt64_ok (buf : ByteBuffer) (h : buf.offset + 8 ≤ buf.length) :
    ReadInt64 buf = (.ok (intOfUint 64 (getUint64Bytes buf.order (buf.buf.drop buf.offset))),
      { buf with offset := buf.offset + 8 }) := by
  unfold ReadInt64
  rw [applyRead_ok buf 8 h]
  rfl

theorem ReadFloat32_ok (buf : ByteBuffer) (h : buf.offset + 4 ≤ buf.length) :
    ReadFloat32 buf = (.ok (getUint32Bytes buf.order (buf.buf.drop buf.offset)),
      { buf with offset := buf.offset + 4 }) := by
  unfold ReadFloat32
  rw [applyRead_ok buf 4 h]
  rfl

theorem ReadFloat64_ok (buf : ByteBuffer) (h : buf.offset + 8 ≤ buf.length) :
    ReadFloat64 buf = (.ok (getUint64Bytes buf.order (buf.buf.drop buf.offset)),
      { buf with offset := buf.offset + 8 }) := by
  unfold ReadFloat64
  rw [applyRead_ok buf 8 h]
  rfl

theorem seekBack (buf : ByteBuffer) (newBuf : List Nat) (n : Nat) :
    SetPosition { buf with
      offset := buf.offset + n
      length := max buf.length (buf.offset + n)
      buf := newBuf } (buf.offset : Int)
    = (.ok (), { buf with
        length := max buf.length (buf.offset + n)
        buf := newBuf }) := by
  rw [SetPosition_ok _ _ (by omega) (by dsimp; push_cast; omega)]
  simp

theorem intOfUint16_uintOfInt16 (v : Int) (h1 : -(2 ^ 15) ≤ v) (h2 : v < 2 ^ 15) :
    intOfUint 16 (uintOfInt 16 v % 2 ^ 16) = v := by
  unfold intOfUint uintOfInt
  split <;> omega

theorem intOfUint32_uintOfInt32 (v : Int) (h1 : -(2 ^ 31) ≤ v) (h2 : v < 2 ^ 31) :
    intOfUint 32 (uintOfInt 32 v % 2 ^ 32) = v := by
  unfold intOfUint uintOfInt
  split <;> omega

theorem intOfUint64_uintOfInt64 (v : Int) (h1 : -(2 ^ 63) ≤ v) (h2 : v < 2 ^ 63) :
    intOfUint 64 (uintOfInt 64 v % 2 ^ 64) = v := by
  unfold intOfUint uintOfInt
  split <;> omega

/-! ### Per-type round trips: write, seek back, read -/

theorem rt_int8 (buf : ByteBuffer) (v : Nat) (hlen : buf.buf.length = buf.cap)
    (hroom : buf.offset + 1 ≤ buf.cap) (hv : v < 2 ^ 8) :
    (WriteInt8 buf v).1 = .ok () ∧
    (SetPosition (WriteInt8 buf v).2 (buf.offset : Int)).1 = .ok () ∧
    (ReadInt8 (SetPosition (WriteInt8 buf v).2 (buf.offset : Int)).2).1 = .ok v := by
  rw [WriteInt8_ok buf v hroom]
  dsimp only
  rw [seekBack buf (buf.buf.set buf.offset v) 1]
  dsimp only
  refine ⟨rfl, rfl, ?_⟩
  set m2 : ByteBuffer := { buf with
    length := max buf.length (buf.offset + 1)
    buf := buf.buf.set buf.offset v } with hm2
  rw [ReadInt8_ok m2 (by rw [hm2]; dsimp; omega)]
  dsimp only
  rw [getD_set_self _ _ _ (by omega)]

theorem rt_boolean (buf : ByteBuffer) (v : Bool) (hlen : buf.buf.length = buf.cap)
    (hroom : buf.offset + 1 ≤ buf.cap) :
    (WriteBoolean buf v).1 = .ok () ∧
    (SetPosition (WriteBoolean buf v).2 (buf.offset : Int)).1 = .ok () ∧
    (ReadBoolean (SetPosition (WriteBoolean buf v).2 (buf.offset : Int)).2).1 = .ok v := by
  cases v
  all_goals {
    first
    | (have hb : WriteBoolean buf false = WriteInt8 buf 0 := rfl
       rw [hb, WriteInt8_ok buf 0 hroom])
    | (have hb : WriteBoolean buf true = WriteInt8 buf 1 := rfl
       rw [hb, WriteInt8_ok buf 1 hroom])
    dsimp only
    first
    | rw [seekBack buf (buf.buf.set buf.offset 0) 1]
    | rw [seekBack buf (buf.buf.set buf.offset 1) 1]
    dsimp only
    refine ⟨rfl, rfl, ?_⟩
    unfold ReadBoolean
    rw [ReadInt8_ok _ (by dsimp; omega)]
    dsimp only [Except.map]
    rw [getD_set_self _ _ _ (by omega)]
    rfl
  }

theorem rt_int16 (buf : ByteBuffer) (v : Int) (hlen : buf.buf.length = buf.cap)
    (hroom : buf.offset + 2 ≤ buf.cap) (h1 : -(2 ^ 15) ≤ v) (h2 : v < 2 ^ 15) :
    (WriteInt16 buf v).1 = .ok () ∧
    (SetPosition (WriteInt16 buf v).2 (buf.offset : Int)).1 = .ok () ∧
    (ReadInt16 (SetPosition (WriteInt16 buf v).2 (buf.offset : Int)).2).1 = .ok v := by
  rw [WriteInt16_ok buf v hroom]
  dsimp only
  rw [seekBack buf (copyInto buf.buf buf.offset (putUint16Bytes buf.order (uintOfInt 16 v))) 2]
  dsimp only
  refine ⟨rfl, rfl, ?_⟩
  set m2 : ByteBuffer := { buf with
    length := max buf.length (buf.offset + 2)
    buf := copyInto buf.buf buf.offset (putUint16Bytes buf.order (uintOfInt 16 v)) } with hm2
  rw [ReadInt16_ok m2 (by rw [hm2]; dsimp; omega)]
  dsimp only
  rw [copyInto_drop _ _ _ (by rw [putUint16Bytes_length]; omega)]
  rw [getPut16, intOfUint16_uintOfInt16 v h1 h2]

theorem rt_uint16 (buf : ByteBuffer) (v : Nat) (hlen : buf.buf.length = buf.cap)
    (hroom : buf.offset + 2 ≤ buf.cap) (hv : v < 2 ^ 16) :
    (WriteUInt16 buf v).1 = .ok () ∧
    (SetPosition (WriteUInt16 buf v).2 (buf.offset : Int)).1 = .ok () ∧
    (ReadUInt16 (SetPosition (WriteUInt16 buf v).2 (buf.offset : Int)).2).1 = .ok v := by
  rw [WriteUInt16_ok buf v hroom]
  dsimp only
  rw [seekBack buf (copyInto buf.buf buf.offset (putUint16Bytes buf.order v)) 2]
  dsimp only
  refine ⟨rfl, rfl, ?_⟩
  set m2 : ByteBuffer := { buf with
    length := max buf.length (buf.offset + 2)
    buf := copyInto buf.buf buf.offset (putUint16Bytes buf.order v) } with hm2
  rw [ReadUInt16_ok m2 (by rw [hm2]; dsimp; omega)]
  dsimp only
  rw [copyInto_drop _ _ _ (by rw [putUint16Bytes_length]; omega)]
  rw [getPut16, Nat.mod_eq_of_lt hv]

theorem rt_int32 (buf : ByteBuffer) (v : Int) (hlen : buf.buf.length = buf.cap)
    (hroom : buf.offset + 4 ≤ buf.cap) (h1 : -(2 ^ 31) ≤ v) (h2 : v < 2 ^ 31) :
    (WriteInt32 buf v).1 = .ok () ∧
    (SetPosition (WriteInt32 buf v).2 (buf.offset : Int)).1 = .ok () ∧
    (ReadInt32 (SetPosition (WriteInt32 buf v).2 (buf.offset : Int)).2).1 = .ok v := by
  rw [WriteInt32_ok buf v hroom]
  dsimp only
  rw [seekBack buf (copyInto buf.buf buf.offset (putUint32Bytes buf.order (uintOfInt 32 v))) 4]
  dsimp only
  refine ⟨rfl, rfl, ?_⟩
  set m2 : ByteBuffer := { buf with
    length := max buf.length (buf.offset + 4)
    buf := copyInto buf.buf buf.offset (putUint32Bytes buf.order (uintOfInt 32 v)) } with hm2
  rw [ReadInt32_ok m2 (by rw [hm2]; dsimp; omega)]
  dsimp only
  rw [copyInto_drop _ _ _ (by rw [putUint32Bytes_length]; omega)]
  rw [getPut32, intOfUint32_uintOfInt32 v h1 h2]

theorem rt_uint32 (buf : ByteBuffer) (v : Nat) (hlen : buf.buf.length = buf.cap)
    (hroom : buf.offset + 4 ≤ buf.cap) (hv : v < 2 ^ 32) :
    (WriteUInt32 buf v).1 = .ok () ∧
    (SetPosition (WriteUInt32 buf v).2 (buf.offset : Int)).1 = .ok () ∧
    (ReadUInt32 (SetPosition (WriteUInt32 buf v).2 (buf.offset : Int)).2).1 = .ok v := by
  rw [WriteUInt32_ok buf v hroom]
  dsimp only
  rw [seekBack buf (copyInto buf.buf buf.offset (putUint32Bytes buf.order v)) 4]
  dsimp only
  refine ⟨rfl, rfl, ?_⟩
  set m2 : ByteBuffer := { buf with
    length := max buf.length (buf.offset + 4)
    buf := copyInto buf.buf buf.offset (putUint32Bytes buf.order v) } with hm2
  rw [ReadUInt32_ok m2 (by rw [hm2]; dsimp; omega)]
  dsimp only
  rw [copyInto_drop _ _ _ (by rw [putUint32Bytes_length]; omega)]
  rw [getPut32, Nat.mod_eq_of_lt hv]

theorem rt_int64 (buf : ByteBuffer) (v : Int) (hlen : buf.buf.length = buf.cap)
    (hroom : buf.offset + 8 ≤ buf.cap) (h1 : -(2 ^ 63) ≤ v) (h2 : v < 2 ^ 63) :
    (WriteInt64 buf v).1 = .ok () ∧
    (SetPosition (WriteInt64 buf v).2 (buf.offset : Int)).1 = .ok () ∧
    (ReadInt64 (SetPosition (WriteInt64 buf v).2 (buf.offset : Int)).2).1 = .ok v := by
  rw [WriteInt64_ok buf v hroom]
  dsimp only
  rw [seekBack buf (copyInto buf.buf buf.offset (putUint64Bytes buf.order (uintOfInt 64 v))) 8]
  dsimp only
  refine ⟨rfl, rfl, ?_⟩
  set m2 : ByteBuffer := { buf with
    length := max buf.length (buf.offset + 8)
    buf := copyInto buf.buf buf.offset (putUint64Bytes buf.order (uintOfInt 64 v)) } with hm2
  rw [ReadInt64_ok m2 (by rw [hm2]; dsimp; omega)]
  dsimp only
  rw [copyInto_drop _ _ _ (by rw [putUint64Bytes_length]; omega)]
  rw [getPut64, intOfUint64_uintOfInt64 v h1 h2]

theorem rt_uint64 (buf : ByteBuffer) (v : Nat) (hlen : buf.buf.length = buf.cap)
    (hroom : buf.offset + 8 ≤ buf.cap) (hv : v < 2 ^ 64) :
    (WriteUInt64 buf v).1 = .ok () ∧
    (SetPosition (WriteUInt64 buf v).2 (buf.offset : Int)).1 = .ok () ∧
    (ReadUInt64 (SetPosition (WriteUInt64 buf v).2 (buf.offset : Int)).2).1 = .ok v := by
  rw [WriteUInt64_ok buf v hroom]
  dsimp only
  rw [seekBack buf (copyInto buf.buf buf.offset (putUint64Bytes buf.order v)) 8]
  dsimp only
  refine ⟨rfl, rfl, ?_⟩
  set m2 : ByteBuffer := { buf with
    length := max buf.length (buf.offset + 8)
    buf := copyInto buf.buf buf.offset (putUint64Bytes buf.order v) } with hm2
  rw [ReadUInt64_ok m2 (by rw [hm2]; dsimp; omega)]
  dsimp only
  rw [copyInto_drop _ _ _ (by rw [putUint64Bytes_length]; omega)]
  rw [getPut64, Nat.mod_eq_of_lt hv]

theorem rt_float32 (buf : ByteBuffer) (bits : Nat) (hlen : buf.buf.length = buf.cap)
    (hroom : buf.offset + 4 ≤ buf.cap) (hv : bits < 2 ^ 32) :
    (WriteFloat32 buf bits).1 = .ok () ∧
    (SetPosition (WriteFloat32 buf bits).2 (buf.offset : Int)).1 = .ok () ∧
    (ReadFloat32 (SetPosition (WriteFloat32 buf bits).2 (buf.offset : Int)).2).1 = .ok bits := by
  rw [WriteFloat32_ok buf bits hroom]
  dsimp only
  rw [seekBack buf (copyInto buf.buf buf.offset (putUint32Bytes buf.order bits)) 4]
  dsimp only
  refine ⟨rfl, rfl, ?_⟩
  set m2 : ByteBuffer := { buf with
    length := max buf.length (buf.offset + 4)
    buf := copyInto buf.buf buf.offset (putUint32Bytes buf.order bits) } with hm2
  rw [ReadFloat32_ok m2 (by rw [hm2]; dsimp; omega)]
  dsimp only
  rw [copyInto_drop _ _ _ (by rw [putUint32Bytes_length]; omega)]
  rw [getPut32, Nat.mod_eq_of_lt hv]

theorem rt_float64 (buf : ByteBuffer) (bits : Nat) (hlen : buf.buf.length = buf.cap)
    (hroom : buf.offset + 8 ≤ buf.cap) (hv : bits < 2 ^ 64) :
    (WriteFloat64 buf bits).1 = .ok () ∧
    (SetPosition (WriteFloat64 buf bits).2 (buf.offset : Int)).1 = .ok () ∧
    (ReadFloat64 (SetPosition (WriteFloat64 buf bits).2 (buf.offset : Int)).2).1 = .ok bits := by
  rw [WriteFloat64_ok buf bits hroom]
  dsimp only
  rw [seekBack buf (copyInto buf.buf buf.offset (putUint64Bytes buf.order bits)) 8]
  dsimp only
  refine ⟨rfl, rfl, ?_⟩
  set m2 : ByteBuffer := { buf with
    length := max buf.length (buf.offset + 8)
    buf := copyInto buf.buf buf.offset (putUint64Bytes buf.order bits) } with hm2
  rw [ReadFloat64_ok m2 (by rw [hm2]; dsimp; omega)]
  dsimp only
  rw [copyInto_drop _ _ _ (by rw [putUint64Bytes_length]; omega)]
  rw [getPut64, Nat.mod_eq_of_lt hv]

/-! ### The terminator scan of ReadString -/

theorem findZero_eq (l : List Nat) (stop i : Nat) :
    findZero l stop i
      = if i < stop then (if l.getD i 0 = 0 then i else findZero l stop (i + 1)) else stop := by
  unfold findZero
  rcases h : stop - i with _ | k
  · simp only [findZeroGo]
    rw [if_neg (by omega : ¬ i < stop)]
  · simp only [findZeroGo]
    rw [(by omega : k = stop - (i + 1))]

theorem findZero_le (l : List Nat) (stop i : Nat) : findZero l stop i ≤ stop := by
  rw [findZero_eq]
  split
  · split
    · omega
    · exact findZero_le l stop (i + 1)
  · omega
termination_by stop - i
decreasing_by simp_wf; omega

theorem findZero_ge (l : List Nat) (stop i : Nat) (h : i ≤ stop) : i ≤ findZero l stop i := by
  rw [findZero_eq]
  split
  · split
    · omega
    · have h5 := findZero_ge l stop (i + 1) (by omega)
      omega
  · omega
termination_by stop - i
decreasing_by simp_wf; omega

theorem findZero_first (l : List Nat) (stop i j : Nat) (hij : i ≤ j)
    (hj : j < findZero l stop i) : l.getD j 0 ≠ 0 := by
  rw [findZero_eq] at hj
  by_cases hi : i < stop
  · rw [if_pos hi] at hj
    by_cases hz : l.getD i 0 = 0
    · rw [if_pos hz] at hj
      omega
    · rw [if_neg hz] at hj
      rcases Nat.eq_or_lt_of_le hij with h | h
      · rw [← h]
        exact hz
      · exact findZero_first l stop (i + 1) j h hj
  · rw [if_neg hi] at hj
    omega
termination_by stop - i
decreasing_by simp_wf; omega

theorem findZero_hit (l : List Nat) (stop i : Nat) (h : findZero l stop i < stop) :
    l.getD (findZero l stop i) 0 = 0 := by
  by_cases hi : i < stop
  · by_cases hz : l.getD i 0 = 0
    · rw [findZero_eq, if_pos hi, if_pos hz]
      exact hz
    · rw [findZero_eq, if_pos hi, if_neg hz]
      rw [findZero_eq, if_pos hi, if_neg hz] at h
      exact findZero_hit l stop (i + 1) h
  · rw [findZero_eq, if_neg hi] at h
    omega
termination_by stop - i
decreasing_by simp_wf; omega

theorem ReadString_neg (buf : ByteBuffer) (len : Int) (h : len < 0) :
    ReadString buf len
      = (.ok ((buf.buf.drop buf.offset).take (findZero buf.buf buf.length buf.offset - buf.offset)),
         { buf with offset := findZero buf.buf buf.length buf.offset }) := by
  unfold ReadString
  rw [if_neg (by omega : ¬ len = 0), if_pos (by omega : len ≤ 0)]

/-! ### Write sequences -/

theorem writeList_ok (chunks : List (List Nat)) (buf : ByteBuffer)
    (h : buf.offset + (chunks.map List.length).sum ≤ buf.cap) :
    ∃ b, writeList buf chunks = .ok b ∧
      b.offset = buf.offset + (chunks.map List.length).sum ∧ b.cap = buf.cap := by
  induction chunks generalizing buf with
  | nil => exact ⟨buf, rfl, by simp, rfl⟩
  | cons c cs ih =>
    simp only [List.map_cons, List.sum_cons] at h
    rw [writeList, WriteBytes_ok buf c (by omega)]
    obtain ⟨b, hb, hoff, hcap⟩ := ih { buf with
      offset := buf.offset + c.length
      length := max buf.length (buf.offset + c.length)
      buf := copyInto buf.buf buf.offset c } (by dsimp only; omega)
    refine ⟨b, hb, ?_, hcap⟩
    rw [hoff]
    dsimp only
    simp only [List.map_cons, List.sum_cons]
    omega

/-! ### Claim theorems -/

/-- C1: for every supported primitive type (int8, boolean, int16/uint16,
int32/uint32, int64/uint64, float32, float64 — float values are
represented by the IEEE-754 bit patterns that Go's
`math.Float32bits`/`math.Float64bits` produce, so equality of the results
is bit-exactness) and every value of the type, on a buffer whose storage
matches its capacity and with enough remaining capacity, writing the
value, calling SetPosition back to the pre-write cursor, and reading the
same type all succeed, and the read returns exactly the written value;
the byte order is an arbitrary field of the starting state, so the
property holds under either byte order. -/
theorem c1_primitive_roundtrip :
    (∀ (buf : ByteBuffer) (v : Nat), buf.buf.length = buf.cap →
      buf.offset + 1 ≤ buf.cap → v < 2 ^ 8 →
      (WriteInt8 buf v).1 = .ok () ∧
      (SetPosition (WriteInt8 buf v).2 (buf.offset : Int)).1 = .ok () ∧
      (ReadInt8 (SetPosition (WriteInt8 buf v).2 (buf.offset : Int)).2).1 = .ok v) ∧
    (∀ (buf : ByteBuffer) (v : Bool), buf.buf.length = buf.cap →
      buf.offset + 1 ≤ buf.cap →
      (WriteBoolean buf v).1 = .ok () ∧
      (SetPosition (WriteBoolean buf v).2 (buf.offset : Int)).1 = .ok () ∧
      (ReadBoolean (SetPosition (WriteBoolean buf v).2 (buf.offset : Int)).2).1 = .ok v) ∧
    (∀ (buf : ByteBuffer) (v : Int), buf.buf.length = buf.cap →
      buf.offset + 2 ≤ buf.cap → -(2 ^ 15) ≤ v → v < 2 ^ 15 →
      (WriteInt16 buf v).1 = .ok () ∧
      (SetPosition (WriteInt16 buf v).2 (buf.offset : Int)).1 = .ok () ∧
      (ReadInt16 (SetPosition (WriteInt16 buf v).2 (buf.offset : Int)).2).1 = .ok v) ∧
    (∀ (buf : ByteBuffer) (v : Nat), buf.buf.length = buf.cap →
      buf.offset + 2 ≤ buf.cap → v < 2 ^ 16 →
      (WriteUInt16 buf v).1 = .ok () ∧
      (SetPosition (WriteUInt16 buf v).2 (buf.offset : Int)).1 = .ok () ∧
      (ReadUInt16 (SetPosition (WriteUInt16 buf v).2 (buf.offset : Int)).2).1 = .ok v) ∧
    (∀ (buf : ByteBuffer) (v : Int), buf.buf.length = buf.cap →
      buf.offset + 4 ≤ buf.cap → -(2 ^ 31) ≤ v → v < 2 ^ 31 →
      (WriteInt32 buf v).1 = .ok () ∧
      (SetPosition (WriteInt32 buf v).2 (buf.offset : Int)).1 = .ok () ∧
      (ReadInt32 (SetPosition (WriteInt32 buf v).2 (buf.offset : Int)).2).1 = .ok v) ∧
    (∀ (buf : ByteBuffer) (v : Nat), buf.buf.length = buf.cap →
      buf.offset + 4 ≤ buf.cap → v < 2 ^ 32 →
      (WriteUInt32 buf v).1 = .ok () ∧
      (SetPosition (WriteUInt32 buf v).2 (buf.offset : Int)).1 = .ok () ∧
      (ReadUInt32 (SetPosition (WriteUInt32 buf v).2 (buf.offset : Int)).2).1 = .ok v) ∧
    (∀ (buf : ByteBuffer) (v : Int), buf.buf.length = buf.cap →
      buf.offset + 8 ≤ buf.cap → -(2 ^ 63) ≤ v → v < 2 ^ 63 →
      (WriteInt64 buf v).1 = .ok () ∧
      (SetPosition (WriteInt64 buf v).2 (buf.offset : Int)).1 = .ok () ∧
      (ReadInt64 (SetPosition (WriteInt64 buf v).2 (buf.offset : Int)).2).1 = .ok v) ∧
    (∀ (buf : ByteBuffer) (v : Nat), buf.buf.length = buf.cap →
      buf.offset + 8 ≤ buf.cap → v < 2 ^ 64 →
      (WriteUInt64 buf v).1 = .ok () ∧
      (SetPosition (WriteUInt64 buf v).2 (buf.offset : Int)).1 = .ok () ∧
      (ReadUInt64 (SetPosition (WriteUInt64 buf v).2 (buf.offset : Int)).2).1 = .ok v) ∧
    (∀ (buf : ByteBuffer) (bits : Nat), buf.buf.length = buf.cap →
      buf.offset + 4 ≤ buf.cap → bits < 2 ^ 32 →
      (WriteFloat32 buf bits).1 = .ok () ∧
      (SetPosition (WriteFloat32 buf bits).2 (buf.offset : Int)).1 = .ok () ∧
      (ReadFloat32 (SetPosition (WriteFloat32 buf bits).2 (buf.offset : Int)).2).1 = .ok bits) ∧
    (∀ (buf : ByteBuffer) (bits : Nat), buf.buf.length = buf.cap →
      buf.offset + 8 ≤ buf.cap → bits < 2 ^ 64 →
      (WriteFloat64 buf bits).1 = .ok () ∧
      (SetPosition (WriteFloat64 buf bits).2 (buf.offset : Int)).1 = .ok () ∧
      (ReadFloat64 (SetPosition (WriteFloat64 buf bits).2 (buf.offset : Int)).2).1 = .ok bits) :=
  ⟨rt_int8, rt_boolean, rt_int16, rt_uint16, rt_int32, rt_uint32, rt_int64, rt_uint64,
   rt_float32, rt_float64⟩

/-- C1 witness: concrete round trips, a uint16 under little-endian and a
float64 bit pattern under big-endian, on fresh buffers of capacity 8. -/
theorem c1_primitive_roundtrip_witness :
    (ReadUInt16 (SetPosition (WriteUInt16 (NewByteBuffer 8 .littleEndian) 43981).2
      ((NewByteBuffer 8 .littleEndian).offset : Int)).2).1 = .ok 43981 ∧
    (ReadFloat64 (SetPosition (WriteFloat64 (NewByteBuffer 8 .bigEndian) 4614256656552045848).2
      ((NewByteBuffer 8 .bigEndian).offset : Int)).2).1 = .ok 4614256656552045848 :=
  ⟨(c1_primitive_roundtrip.2.2.2.1 (NewByteBuffer 8 .littleEndian) 43981
      (by decide) (by decide) (by decide)).2.2,
   (c1_primitive_roundtrip.2.2.2.2.2.2.2.2.2 (NewByteBuffer 8 .bigEndian) 4614256656552045848
      (by decide) (by decide) (by decide)).2.2⟩

/-- C2 counterexample: writing bytes 0x41 0x42 0x00 0x43, seeking to 0 and
calling ReadString with length -1 returns "AB" (bytes 65 66) but leaves
the cursor AT the terminator, offset 2 — not at offset 3 as the claim
states (the terminator byte is not consumed). -/
theorem c2_readString_counterexample :
    (ReadString abBuf (-1)).1 = .ok [65, 66] ∧
    (ReadString abBuf (-1)).2.offset = 2 ∧
    ¬ (ReadString abBuf (-1)).2.offset = 3 := by
  decide

/-- C2 amended: ReadString with a negative length scans forward from the
cursor for the first zero byte strictly before validLength, returns the
bytes strictly before that terminator, and leaves the cursor AT the
terminator's index (the terminator is not consumed), or at validLength if
no terminator exists in the valid data; in particular the concrete
scenario of the claim returns "AB" and leaves the cursor at offset 2. -/
theorem c2_readString_negative :
    (∀ (buf : ByteBuffer) (len : Int), len < 0 → buf.offset ≤ buf.length →
      ∃ e : Nat, buf.offset ≤ e ∧ e ≤ buf.length ∧
        (∀ j, buf.offset ≤ j → j < e → buf.buf.getD j 0 ≠ 0) ∧
        (e < buf.length → buf.buf.getD e 0 = 0) ∧
        ReadString buf len = (.ok ((buf.buf.drop buf.offset).take (e - buf.offset)),
          { buf with offset := e })) ∧
    ((ReadString abBuf (-1)).1 = .ok [65, 66] ∧ (ReadString abBuf (-1)).2.offset = 2) := by
  constructor
  · intro buf len hneg hle
    exact ⟨findZero buf.buf buf.length buf.offset, findZero_ge _ _ _ hle, findZero_le _ _ _,
      fun j hj1 hj2 => findZero_first _ _ _ _ hj1 hj2,
      fun hlt => findZero_hit _ _ _ hlt, ReadString_neg buf len hneg⟩
  · decide

/-- C2 witness: the amended characterisation applied to the claim's
concrete scenario. -/
theorem c2_readString_negative_witness :
    ∃ e : Nat, abBuf.offset ≤ e ∧ e ≤ abBuf.length ∧
      (∀ j, abBuf.offset ≤ j → j < e → abBuf.buf.getD j 0 ≠ 0) ∧
      (e < abBuf.length → abBuf.buf.getD e 0 = 0) ∧
      ReadString abBuf (-1) = (.ok ((abBuf.buf.drop abBuf.offset).take (e - abBuf.offset)),
        { abBuf with offset := e }) :=
  c2_readString_negative.1 abBuf (-1) (by decide) (by decide)

/-- C3 counterexample: on a buffer holding 4 valid bytes with the cursor at
0, ReadBytes into a 2-byte destination with requested length 3 fails with
`ErrorReadOverflow` — the very same error value as a read overflow, not a
distinct length-mismatch error kind (the package defines no such error). -/
theorem c3_readBytes_counterexample :
    ReadBytes (SetPosition (WriteBytes (NewByteBuffer 8 .littleEndian) [1, 2, 3, 4]).2 0).2 [0, 0] 3
      = (.error .readOverflow,
         (SetPosition (WriteBytes (NewByteBuffer 8 .littleEndian) [1, 2, 3, 4]).2 0).2) := by
  decide

/-- C3 amended: for every buffer state, ReadBytes with a positive length
exceeding the destination's length fails with `ErrorReadOverflow` (the
same error value used for read overflow, not a distinct kind) and leaves
the whole state, in particular the cursor, unchanged. -/
theorem c3_readBytes_length_mismatch (buf : ByteBuffer) (dst : List Nat) (len : Int)
    (h : (dst.length : Int) < len) :
    ReadBytes buf dst len = (.error .readOverflow, buf) := by
  unfold ReadBytes
  rw [if_neg (by omega : ¬ len = 0), if_pos (by omega : len > (dst.length : Int))]

/-- C3 witness: the amended statement at a concrete fresh buffer. -/
theorem c3_readBytes_length_mismatch_witness :
    ReadBytes (NewByteBuffer 4 .littleEndian) [0, 0] 3
      = (.error .readOverflow, NewByteBuffer 4 .littleEndian) :=
  c3_readBytes_length_mismatch (NewByteBuffer 4 .littleEndian) [0, 0] 3 (by decide)

/-- C4: every public operation fails atomically — whenever an operation
returns an error, the successor state equals the pre-call state exactly
(storage, validLength and cursor are all untouched). -/
theorem c4_error_atomicity : ∀ (buf : ByteBuffer) (op : Op) (e : BufError),
    (step buf op).1 = .error e → (step buf op).2 = buf := by
  intro buf op e
  cases op <;>
    simp only [step, SetPosition, Reset, SetOrder, WriteInt8, WriteBoolean, WriteString,
      WriteBytes, WriteInt16, WriteUInt16, WriteInt32, WriteUInt32, WriteInt64, WriteUInt64,
      WriteFloat32, WriteFloat64, ReadInt8, ReadBoolean, ReadString, ReadBytes,
      ReadInt16, ReadUInt16, ReadInt32, ReadUInt32, ReadInt64, ReadUInt64,
      ReadFloat32, ReadFloat64, PutUInt16, PutUInt32, PutUInt64,
      GetUInt16, GetUInt32, GetUInt64, applyWrite, applyRead, Except.map] <;>
    (repeat' split) <;>
    simp_all

/-- C4 witness: a failing one-byte write on a zero-capacity buffer leaves
the state unchanged. -/
theorem c4_error_atomicity_witness :
    (step (NewByteBuffer 0 .littleEndian) (.writeInt8 5)).2 = NewByteBuffer 0 .littleEndian :=
  c4_error_atomicity (NewByteBuffer 0 .littleEndian) (.writeInt8 5) .writeOverflow (by decide)

/-- C5: on a freshly created buffer of capacity c, any sequence of writes
whose lengths total exactly c succeeds in full (and the cursor ends at c),
while on any state a WriteBytes that would push the cursor past the
capacity fails with WriteOverflow and leaves cursor, validLength and
storage unchanged. -/
theorem c5_capacity_boundary :
    (∀ (c : Nat) (o : ByteOrder) (chunks : List (List Nat)),
      (chunks.map List.length).sum = c →
      ∃ b, writeList (NewByteBuffer c o) chunks = .ok b ∧ b.offset = c) ∧
    (∀ (buf : ByteBuffer) (v : List Nat), buf.cap < buf.offset + v.length →
      WriteBytes buf v = (.error .writeOverflow, buf)) := by
  constructor
  · intro c o chunks hsum
    obtain ⟨b, hb, hoff, hcap⟩ := writeList_ok chunks (NewByteBuffer c o)
      (by simp only [NewByteBuffer]; omega)
    exact ⟨b, hb, by rw [hoff]; simp only [NewByteBuffer]; omega⟩
  · intro buf v h
    exact WriteBytes_fail buf v h

/-- C5 witness: two chunks totalling the capacity succeed on a fresh
buffer of capacity 3, and a 4-byte write on the same fresh buffer fails
with WriteOverflow leaving the state unchanged. -/
theorem c5_capacity_boundary_witness :
    (∃ b, writeList (NewByteBuffer 3 .littleEndian) [[1], [2, 3]] = .ok b ∧ b.offset = 3) ∧
    WriteBytes (NewByteBuffer 3 .littleEndian) [1, 2, 3, 4]
      = (.error .writeOverflow, NewByteBuffer 3 .littleEndian) :=
  ⟨c5_capacity_boundary.1 3 .littleEndian [[1], [2, 3]] (by decide),
   c5_capacity_boundary.2 (NewByteBuffer 3 .littleEndian) [1, 2, 3, 4] (by decide)⟩

/-- C6: SetPosition succeeds and sets the cursor to p exactly when
`0 ≤ p ≤ validLength`; otherwise it fails with PositionError
(`ErrorPositionOverflow`) and the whole state, in particular the cursor,
is unchanged. -/
theorem c6_setPosition (buf : ByteBuffer) (p : Int) :
    (0 ≤ p ∧ p ≤ (buf.length : Int) →
      SetPosition buf p = (.ok (), { buf with offset := p.toNat })) ∧
    (¬ (0 ≤ p ∧ p ≤ (buf.length : Int)) →
      SetPosition buf p = (.error .positionOverflow, buf)) := by
  constructor
  · intro h
    exact SetPosition_ok buf p h.1 h.2
  · intro h
    unfold SetPosition
    rw [if_pos (by omega : p < 0 ∨ p > (buf.length : Int))]

/-- C6 witness: on a fresh buffer (validLength 0), position 0 is accepted
while 1 and -1 are rejected without touching the state. -/
theorem c6_setPosition_witness :
    SetPosition (NewByteBuffer 4 .littleEndian) 0
      = (.ok (), { NewByteBuffer 4 .littleEndian with offset := (0 : Int).toNat }) ∧
    SetPosition (NewByteBuffer 4 .littleEndian) 1
      = (.error .positionOverflow, NewByteBuffer 4 .littleEndian) ∧
    SetPosition (NewByteBuffer 4 .littleEndian) (-1)
      = (.error .positionOverflow, NewByteBuffer 4 .littleEndian) :=
  ⟨(c6_setPosition (NewByteBuffer 4 .littleEndian) 0).1 (by decide),
   (c6_setPosition (NewByteBuffer 4 .littleEndian) 1).2 (by decide),
   (c6_setPosition (NewByteBuffer 4 .littleEndian) (-1)).2 (by decide)⟩

/-- C7: each of PutUInt16/PutUInt32/PutUInt64 and GetUInt16/GetUInt32/
GetUInt64 leaves the cursor (Position) unchanged whether it succeeds or
fails, and succeeds exactly when `0 ≤ offset` and
`offset + size ≤ validLength`. -/
theorem c7_putget_cursor_independence (buf : ByteBuffer) (off : Int) (v : Nat) :
    (Position (PutUInt16 buf off v).2 = Position buf ∧
      ((PutUInt16 buf off v).1 = .ok () ↔ 0 ≤ off ∧ off + 2 ≤ (buf.length : Int))) ∧
    (Position (PutUInt32 buf off v).2 = Position buf ∧
      ((PutUInt32 buf off v).1 = .ok () ↔ 0 ≤ off ∧ off + 4 ≤ (buf.length : Int))) ∧
    (Position (PutUInt64 buf off v).2 = Position buf ∧
      ((PutUInt64 buf off v).1 = .ok () ↔ 0 ≤ off ∧ off + 8 ≤ (buf.length : Int))) ∧
    (Position (GetUInt16 buf off).2 = Position buf ∧
      ((∃ w, (GetUInt16 buf off).1 = .ok w) ↔ 0 ≤ off ∧ off + 2 ≤ (buf.length : Int))) ∧
    (Position (GetUInt32 buf off).2 = Position buf ∧
      ((∃ w, (GetUInt32 buf off).1 = .ok w) ↔ 0 ≤ off ∧ off + 4 ≤ (buf.length : Int))) ∧
    (Position (GetUInt64 buf off).2 = Position buf ∧
      ((∃ w, (GetUInt64 buf off).1 = .ok w) ↔ 0 ≤ off ∧ off + 8 ≤ (buf.length : Int))) := by
  refine ⟨?_, ?_, ?_, ?_, ?_, ?_⟩
  all_goals {
    simp only [PutUInt16, PutUInt32, PutUInt64, GetUInt16, GetUInt32, GetUInt64, Position]
    split
    next h =>
      exact ⟨rfl, iff_of_false (by simp) (by omega)⟩
    next h =>
      first
      | exact ⟨rfl, iff_of_true rfl (by omega)⟩
      | exact ⟨rfl, iff_of_true ⟨_, rfl⟩ (by omega)⟩
  }

/-- C8: a freshly constructed buffer satisfies the invariant
`0 ≤ cursor ≤ validLength ≤ capacity` (the lower bound holds by the `Nat`
typing of the cursor), every public operation preserves it, and no
operation ever changes the capacity field. -/
theorem c8_invariant_preservation :
    (∀ (c : Nat) (o : ByteOrder), WF (NewByteBuffer c o)) ∧
    (∀ (buf : ByteBuffer) (op : Op), WF buf →
      WF (step buf op).2 ∧ (step buf op).2.cap = buf.cap) := by
  constructor
  · intro c o
    exact ⟨Nat.le_refl 0, Nat.zero_le c⟩
  · intro buf op hwf
    obtain ⟨h1, h2⟩ := hwf
    have hfz := findZero_le buf.buf buf.length buf.offset
    cases op <;>
      simp only [step, WF, SetPosition, Reset, SetOrder, WriteInt8, WriteBoolean, WriteString,
        WriteBytes, WriteInt16, WriteUInt16, WriteInt32, WriteUInt32, WriteInt64, WriteUInt64,
        WriteFloat32, WriteFloat64, ReadInt8, ReadBoolean, ReadString, ReadBytes,
        ReadInt16, ReadUInt16, ReadInt32, ReadUInt32, ReadInt64, ReadUInt64,
        ReadFloat32, ReadFloat64, PutUInt16, PutUInt32, PutUInt64,
        GetUInt16, GetUInt32, GetUInt64, applyWrite, applyRead, Except.map] <;>
      (repeat' split) <;>
      (refine ⟨⟨?_, ?_⟩, ?_⟩ <;> (try dsimp only) <;> omega)

/-- C8 witness: the invariant holds after a concrete write on a fresh
buffer, with the capacity unchanged. -/
theorem c8_invariant_preservation_witness :
    WF (step (NewByteBuffer 4 .littleEndian) (.writeInt8 7)).2 ∧
    (step (NewByteBuffer 4 .littleEndian) (.writeInt8 7)).2.cap
      = (NewByteBuffer 4 .littleEndian).cap :=
  c8_invariant_preservation.2 (NewByteBuffer 4 .littleEndian) (.writeInt8 7)
    (c8_invariant_preservation.1 4 .littleEndian)

/-- C9: whenever at least one byte of valid data remains at the cursor,
ReadBoolean succeeds and returns the comparison of that byte with 1:
true exactly when the byte is 1, false for every other value. -/
theorem c9_readBoolean (buf : ByteBuffer) (h : buf.offset + 1 ≤ buf.length) :
    (ReadBoolean buf).1 = .ok (buf.buf.getD buf.offset 0 == 1) ∧
    ((ReadBoolean buf).1 = .ok true ↔ buf.buf.getD buf.offset 0 = 1) := by
  have h0 : (ReadBoolean buf).1 = .ok (buf.buf.getD buf.offset 0 == 1) := by
    unfold ReadBoolean
    rw [ReadInt8_ok buf h]
    rfl
  refine ⟨h0, ?_⟩
  rw [h0]
  simp

/-- C9 witness: a buffer whose next byte is 2 (nonzero but not 1) yields
false. -/
theorem c9_readBoolean_witness :
    (ReadBoolean (SetPosition (WriteBytes (NewByteBuffer 4 .littleEndian) [2]).2 0).2).1
      = .ok false := by
  have h := (c9_readBoolean (SetPosition (WriteBytes (NewByteBuffer 4 .littleEndian) [2]).2 0).2
    (by decide)).1
  rw [h]
  decide

/-- C10: when the byte at the cursor is 0 and the cursor is strictly below
validLength, ReadString with a negative length returns the empty string,
succeeds, and leaves the state (in particular the cursor) unchanged, so
repeated calls in that state make no progress. -/
theorem c10_readString_zero_at_cursor (buf : ByteBuffer) (len : Int) (hneg : len < 0)
    (hlt : buf.offset < buf.length) (hz : buf.buf.getD buf.offset 0 = 0) :
    ReadString buf len = (.ok [], buf) := by
  rw [ReadString_neg buf len hneg]
  have he : findZero buf.buf buf.length buf.offset = buf.offset := by
    rw [findZero_eq, if_pos hlt, if_pos hz]
  rw [he]
  simp

/-- C10 witness: a buffer whose valid data starts with a zero byte at the
cursor. -/
theorem c10_readString_zero_at_cursor_witness :
    ReadString (SetPosition (WriteBytes (NewByteBuffer 4 .littleEndian) [0, 65]).2 0).2 (-1)
      = (.ok [], (SetPosition (WriteBytes (NewByteBuffer 4 .littleEndian) [0, 65]).2 0).2) :=
  c10_readString_zero_at_cursor _ _ (by decide) (by decide) (by decide)

end GoBuffer
